import Mathlib

/-!
Verification of the action-execution and agent-loop core of the
`langchain-steel` repository, shallowly embedded from
`langchain_steel/agents/claude_computer_use.py` and
`langchain_steel/utils/client.py`.

Machine integers of the Python source are modelled as `Int`/`Nat`,
floating-point times and delays as `ℚ`, Python exceptions as
`Except String`, and external transports (Playwright page, Anthropic
API, Steel provider) as explicit effect lists or scripted oracles.
-/

namespace LangchainSteel

/-- Character-list version of `String.startsWith`: `pat` is an initial
segment of `hay`. -/
def charsStartWith : List Char → List Char → Bool
  | _, [] => true
  | [], _ :: _ => false
  | h :: hs, p :: ps => h = p && charsStartWith hs ps

/-- Contiguous-substring test on character lists. -/
def charsContain : List Char → List Char → Bool
  | [], pat => pat.isEmpty
  | h :: t, pat => charsStartWith (h :: t) pat || charsContain t pat

/-- Substring test mirroring Python's `pat in hay` on strings:
`pat` occurs as a contiguous substring of `hay`. -/
def strContains (hay pat : String) : Bool :=
  charsContain hay.data pat.data

/-! ## Rate-limit backoff policy

Embedding of `_handle_rate_limit_error` (claude_computer_use.py,
lines 144-167).  The random jitter `random.uniform(0.2, 0.8)` is passed
in as an explicit parameter `jitter`; the uniform draw's range is
recorded by `jitterLo`/`jitterHi` below. -/

/-- The fixed escalating base-delay table of `_handle_rate_limit_error`
(`base_delays = [1, 2, 4, 8, 15, 30, 60, 90, 120, 180]`). -/
def baseDelays : List ℚ := [1, 2, 4, 8, 15, 30, 60, 90, 120, 180]

/-- Base delay for a given attempt:
`base_delays[min(attempt, len(base_delays) - 1)]`. -/
def baseDelay (attempt : Nat) : ℚ :=
  baseDelays.getD (min attempt (baseDelays.length - 1)) 0

/-- Lower bound of the jitter range `random.uniform(0.2, 0.8)`. -/
def jitterLo : ℚ := 1 / 5

/-- Upper bound of the jitter range `random.uniform(0.2, 0.8)`. -/
def jitterHi : ℚ := 4 / 5

/-- Embedding of `_handle_rate_limit_error(attempt, max_retries=10)`:
returns `none` once `attempt >= max_retries`, otherwise the base delay
for `attempt` plus the random jitter draw (passed explicitly). -/
def handleRateLimitError (attempt : Nat) (maxRetries : Nat) (jitter : ℚ) :
    Option ℚ :=
  if attempt ≥ maxRetries then none
  else some (baseDelay attempt + jitter)

/-- Expected value of the delay returned for `attempt`: the base-table
entry plus the mean of the uniform jitter range. -/
def expectedDelay (attempt : Nat) : ℚ :=
  baseDelay attempt + (jitterLo + jitterHi) / 2

/-! ## Coordinate clamping

Embedding of `SteelBrowserSession.clamp_coordinates` (lines 502-511):
`clamped_x = max(0, min(x, width - 1))`, `clamped_y = max(0, min(y, height - 1))`.
The viewport dimensions are explicit parameters (they are
`self.dimensions` in the source). -/

/-- Embedding of `clamp_coordinates(x, y)` over viewport `(width, height)`. -/
def clampCoordinates (width height x y : Int) : Int × Int :=
  (max 0 (min x (width - 1)), max 0 (min y (height - 1)))

/-- Per-axis clamp, used to state that the two axes are clamped
independently. -/
def clampAxis (dim v : Int) : Int :=
  max 0 (min v (dim - 1))

/-! ## Key translation

Embedding of the `CUA_KEY_TO_PLAYWRIGHT_KEY` table (lines 36-96) and of
the key-name/modifier translation inside `execute_computer_action`. -/

/-- The symbolic-to-Playwright key table `CUA_KEY_TO_PLAYWRIGHT_KEY`,
in source order. -/
def cuaKeyToPlaywrightKey : List (String × String) :=
  [("/", "Divide"), ("\\", "Backslash"), ("alt", "Alt"),
   ("arrowdown", "ArrowDown"), ("arrowleft", "ArrowLeft"),
   ("arrowright", "ArrowRight"), ("arrowup", "ArrowUp"),
   ("backspace", "Backspace"), ("capslock", "CapsLock"), ("cmd", "Meta"),
   ("ctrl", "Control"), ("delete", "Delete"), ("end", "End"),
   ("enter", "Enter"), ("esc", "Escape"), ("home", "Home"),
   ("insert", "Insert"), ("option", "Alt"), ("pagedown", "PageDown"),
   ("pageup", "PageUp"), ("shift", "Shift"), ("space", " "),
   ("super", "Meta"), ("tab", "Tab"), ("win", "Meta"),
   ("Return", "Enter"), ("KP_Enter", "Enter"), ("Escape", "Escape"),
   ("BackSpace", "Backspace"), ("Delete", "Delete"), ("Tab", "Tab"),
   ("ISO_Left_Tab", "Shift+Tab"), ("Up", "ArrowUp"), ("Down", "ArrowDown"),
   ("Left", "ArrowLeft"), ("Right", "ArrowRight"), ("Page_Up", "PageUp"),
   ("Page_Down", "PageDown"), ("Home", "Home"), ("End", "End"),
   ("Insert", "Insert"),
   ("F1", "F1"), ("F2", "F2"), ("F3", "F3"), ("F4", "F4"),
   ("F5", "F5"), ("F6", "F6"), ("F7", "F7"), ("F8", "F8"),
   ("F9", "F9"), ("F10", "F10"), ("F11", "F11"), ("F12", "F12"),
   ("Shift_L", "Shift"), ("Shift_R", "Shift"),
   ("Control_L", "Control"), ("Control_R", "Control"),
   ("Alt_L", "Alt"), ("Alt_R", "Alt"),
   ("Meta_L", "Meta"), ("Meta_R", "Meta"),
   ("Super_L", "Meta"), ("Super_R", "Meta"),
   ("minus", "-"), ("equal", "="), ("bracketleft", "["),
   ("bracketright", "]"), ("semicolon", ";"), ("apostrophe", "\x27"),
   ("grave", "\x60"), ("comma", ","), ("period", "."), ("slash", "/")]

/-- Table lookup with pass-through, mirroring the repeated source idiom
`if k in CUA_KEY_TO_PLAYWRIGHT_KEY: k = CUA_KEY_TO_PLAYWRIGHT_KEY[k]`. -/
def translateKey (k : String) : String :=
  (cuaKeyToPlaywrightKey.lookup k).getD k

/-- Modifier-alias mapping used by the `key` action for combinations
(lines 683-693): ctrl/control→Control, shift→Shift, alt/option→Alt,
cmd/meta/super→Meta, anything else passed through. -/
def mapModifier (m : String) : String :=
  let ml := m.toLower
  if ml = "ctrl" ∨ ml = "control" then "Control"
  else if ml = "shift" then "Shift"
  else if ml = "alt" ∨ ml = "option" then "Alt"
  else if ml = "cmd" ∨ ml = "meta" ∨ ml = "super" then "Meta"
  else m

/-- The `key` action's handling of a possibly-combined key name
(lines 674-701): split on `+`, map the modifier tokens through the alias
table, the final token through the key table, and re-join. -/
def translateCombo (t : String) : String :=
  if strContains t "+" then
    let parts := t.splitOn "+"
    String.intercalate "+"
      (parts.dropLast.map mapModifier ++ [translateKey (parts.getLastD "")])
  else translateKey t

/-! ## Action executor

Embedding of `SteelBrowserSession.execute_computer_action`
(lines 513-722) and `AsyncSteelBrowserSession.execute_computer_action`
(lines 920-1122).  The Playwright page is replaced by a list of
transport effects; a run returns the effects issued plus either the
final session state (success, where the base64 screenshot string is
abstracted by the closing `screenshotCap` effect) or the message of the
raised exception. -/

/-- One transport (mouse/keyboard/capture/timer) call issued to the
remote page. -/
inductive Effect where
  | mouseMove (x y : Int)
  | mouseDown
  | mouseUp
  | mouseClick (x y : Int) (button : String)
  | mouseDblClick (x y : Int)
  | wheel (dx dy : Int)
  | keyDown (k : String)
  | keyUp (k : String)
  | keyPress (k : String)
  | typeChunk (s : String)
  | sleep (seconds : ℚ)
  | screenshotCap
deriving DecidableEq, Repr

/-- Mutable session state read and written by the executor: the
viewport `self.dimensions`, the remembered `self._last_mouse_position`,
and whether the page handle is closed. -/
structure SessState where
  width : Int
  height : Int
  lastMousePosition : Option (Int × Int) := none
  pageClosed : Bool := false
deriving DecidableEq, Repr

/-- The keyword parameters of `execute_computer_action`.  `coordinate`
is kept as a raw list to preserve the length/negativity validation of
`validate_and_get_coordinates`. -/
structure ActionParams where
  text : Option String := none
  coordinate : Option (List Int) := none
  scrollDirection : Option String := none
  scrollAmount : Option Int := none
  duration : Option ℚ := none
  key : Option String := none
deriving DecidableEq, Repr

/-- Python truthiness of an optional string (`if text:` / `if key:`):
present and non-empty. -/
def truthy : Option String → Option String
  | some s => if s = "" then none else some s
  | none => none

/-- Embedding of `validate_and_get_coordinates` (lines 492-500): the
pair must be exactly two non-negative integers, and is then clamped. -/
def validateAndGetCoordinates (st : SessState) (c : List Int) :
    Except String (Int × Int) :=
  match c with
  | [x, y] =>
    if x < 0 ∨ y < 0 then
      .error "coordinate must be a tuple/list of non-negative ints"
    else
      .ok (clampCoordinates st.width st.height x y)
  | _ => .error "coordinate must be a tuple or list of length 2"

/-- The signed wheel deltas of the `scroll` action's `scroll_mapping`
(lines 566-571): 100 pixels per unit of amount on the direction's axis. -/
def scrollDelta (direction : String) (amount : Int) : Int × Int :=
  if direction = "down" then (0, 100 * amount)
  else if direction = "up" then (0, -(100 * amount))
  else if direction = "right" then (100 * amount, 0)
  else (-(100 * amount), 0)

/-- The five pointer-button action names (line 611). -/
def clickActions : List String :=
  ["left_click", "right_click", "double_click", "triple_click", "middle_click"]

/-- The mouse events issued for one pointer-button action at `(x, y)`
(lines 632-642). -/
def clickEffects (action : String) (x y : Int) : List Effect :=
  if action = "left_click" then [.mouseClick x y "left"]
  else if action = "right_click" then [.mouseClick x y "right"]
  else if action = "double_click" then [.mouseDblClick x y]
  else if action = "triple_click" then
    [.mouseClick x y "left", .mouseClick x y "left", .mouseClick x y "left"]
  else [.mouseClick x y "middle"]

/-- Splits the character list into the 50-character groups the `type`
action sends (`TYPING_GROUP_SIZE = 50`, line 707). -/
def chunkChars (l : List Char) : List String :=
  if h : l = [] then []
  else String.mk (l.take 50) :: chunkChars (l.drop 50)
termination_by l.length
decreasing_by
  simp only [List.length_drop]
  have := List.length_pos.mpr h
  omega

/-- The keyboard events of the `type` action (lines 704-710): each
50-character chunk is typed (with the transport-level 12 ms per-key
delay) followed by a 0.01 s pause. -/
def typeEffects (t : String) : List Effect :=
  (chunkChars t.data).flatMap (fun c => [.typeChunk c, .sleep (1 / 100)])

/-- The dispatch chain of `execute_computer_action` from the `scroll`
branch (line 548) to the final invalid-action raise (line 722).  This
part is textually identical in the sync and async variants (modulo
`await`); the two variants below differ only in the preceding
`left_mouse_down`/`left_mouse_up` branch. -/
def dispatchFromScroll (st : SessState) (action : String) (p : ActionParams) :
    List Effect × Except String SessState :=
  if action = "scroll" then
    if ¬ (p.scrollDirection = some "up" ∨ p.scrollDirection = some "down"
        ∨ p.scrollDirection = some "left" ∨ p.scrollDirection = some "right") then
      ([], .error "scroll_direction must be \x27up\x27, \x27down\x27, \x27left\x27, or \x27right\x27")
    else
      match p.scrollAmount with
      | none => ([], .error "scroll_amount must be a non-negative int")
      | some amt =>
        if amt < 0 then ([], .error "scroll_amount must be a non-negative int")
        else
          let moved : Except String (List Effect × SessState) :=
            match p.coordinate with
            | none => .ok ([], st)
            | some c =>
              match validateAndGetCoordinates st c with
              | .error e => .error e
              | .ok (x, y) =>
                .ok ([.mouseMove x y], { st with lastMousePosition := some (x, y) })
          match moved with
          | .error e => ([], .error e)
          | .ok (es, st') =>
            let d := scrollDelta (p.scrollDirection.getD "") amt
            match truthy p.text with
            | some m =>
              (es ++ [.keyDown (translateKey m), .wheel d.1 d.2,
                      .keyUp (translateKey m), .screenshotCap], .ok st')
            | none => (es ++ [.wheel d.1 d.2, .screenshotCap], .ok st')
  else if action = "hold_key" ∨ action = "wait" then
    match p.duration with
    | none => ([], .error "duration must be a number")
    | some dur =>
      if dur < 0 then ([], .error "duration must be non-negative")
      else if dur > 100 then ([], .error "duration is too long")
      else if action = "hold_key" then
        match p.text with
        | none => ([], .error "text is required for hold_key")
        | some t =>
          ([.keyDown (translateKey t), .sleep dur, .keyUp (translateKey t),
            .screenshotCap], .ok st)
      else ([.sleep dur, .screenshotCap], .ok st)
  else if action ∈ clickActions then
    match p.text with
    | some _ => ([], .error ("text is not accepted for " ++ action))
    | none =>
      let positioned : Except String (List Effect × SessState × Int × Int) :=
        match p.coordinate with
        | some c =>
          match validateAndGetCoordinates st c with
          | .error e => .error e
          | .ok (x, y) =>
            .ok ([.mouseMove x y], { st with lastMousePosition := some (x, y) }, x, y)
        | none =>
          match st.lastMousePosition with
          | some (x, y) => .ok ([], st, x, y)
          | none => .ok ([], st, st.width / 2, st.height / 2)
      match positioned with
      | .error e => ([], .error e)
      | .ok (es, st', x, y) =>
        match truthy p.key with
        | some m =>
          (es ++ [.keyDown (translateKey m)] ++ clickEffects action x y
              ++ [.keyUp (translateKey m), .screenshotCap], .ok st')
        | none => (es ++ clickEffects action x y ++ [.screenshotCap], .ok st')
  else if action = "mouse_move" ∨ action = "left_click_drag" then
    match p.coordinate with
    | none => ([], .error ("coordinate is required for " ++ action))
    | some c =>
      match p.text with
      | some _ => ([], .error ("text is not accepted for " ++ action))
      | none =>
        match validateAndGetCoordinates st c with
        | .error e => ([], .error e)
        | .ok (x, y) =>
          if action = "mouse_move" then
            ([.mouseMove x y, .screenshotCap],
             .ok { st with lastMousePosition := some (x, y) })
          else
            ([.mouseDown, .mouseMove x y, .mouseUp, .screenshotCap],
             .ok { st with lastMousePosition := some (x, y) })
  else if action = "key" ∨ action = "type" then
    match p.text with
    | none => ([], .error ("text is required for " ++ action))
    | some t =>
      match p.coordinate with
      | some _ => ([], .error ("coordinate is not accepted for " ++ action))
      | none =>
        if action = "key" then
          ([.keyPress (translateCombo t), .screenshotCap], .ok st)
        else (typeEffects t ++ [.screenshotCap], .ok st)
  else if action = "screenshot" ∨ action = "cursor_position" then
    match p.text with
    | some _ => ([], .error ("text is not accepted for " ++ action))
    | none =>
      match p.coordinate with
      | some _ => ([], .error ("coordinate is not accepted for " ++ action))
      | none => ([.screenshotCap], .ok st)
  else ([], .error ("Invalid action: " ++ action))

/-- Embedding of the synchronous
`SteelBrowserSession.execute_computer_action` (lines 513-722): after the
closed-page guard, `left_mouse_down`/`left_mouse_up` issue the mouse
event and return a screenshot; every other action flows through the
dispatch chain. -/
def executeComputerAction (st : SessState) (action : String)
    (p : ActionParams) : List Effect × Except String SessState :=
  if st.pageClosed then ([], .error "Browser session has been closed")
  else if action = "left_mouse_down" ∨ action = "left_mouse_up" then
    match p.coordinate with
    | some _ => ([], .error ("coordinate is not accepted for " ++ action))
    | none =>
      if action = "left_mouse_down" then ([.mouseDown, .screenshotCap], .ok st)
      else ([.mouseUp, .screenshotCap], .ok st)
  else dispatchFromScroll st action p

/-- Embedding of the asynchronous
`AsyncSteelBrowserSession.execute_computer_action` (lines 920-1122).
In the source, the `return await self.screenshot()` for
`left_mouse_down`/`left_mouse_up` (line 953) sits after `raise e` inside
the `except` clause and is unreachable, so after issuing the mouse event
control falls through to the rest of the dispatch chain, which ends in
the invalid-action raise for these two names. -/
def executeComputerActionAsync (st : SessState) (action : String)
    (p : ActionParams) : List Effect × Except String SessState :=
  if st.pageClosed then ([], .error "Browser session has been closed")
  else if action = "left_mouse_down" ∨ action = "left_mouse_up" then
    match p.coordinate with
    | some _ => ([], .error ("coordinate is not accepted for " ++ action))
    | none =>
      let eff := if action = "left_mouse_down" then Effect.mouseDown else Effect.mouseUp
      let rest := dispatchFromScroll st action p
      (eff :: rest.1, rest.2)
  else dispatchFromScroll st action p

/-! ## Theorems for claims C3 and C5 -/

/-- Helper: the base-delay table is monotone at indices within bounds. -/
theorem baseDelays_getD_mono :
    ∀ i, i ≤ 9 → ∀ j, j ≤ 9 → i ≤ j →
      baseDelays.getD i 0 ≤ baseDelays.getD j 0 := by
  decide

/-- Helper: `baseDelay` is monotone in the attempt number. -/
theorem baseDelay_mono {a b : Nat} (h : a ≤ b) : baseDelay a ≤ baseDelay b := by
  unfold baseDelay
  have : baseDelays.length - 1 = 9 := by decide
  rw [this]
  exact baseDelays_getD_mono _ (Nat.min_le_right a 9) _ (Nat.min_le_right b 9)
    (min_le_min h (le_refl 9))

/-- C3: the backoff policy `_handle_rate_limit_error` returns `none` for
every `attempt ≥ maxRetries`; for `attempt < 10` (the default budget) it
returns the base-table entry indexed by the attempt plus the jitter draw;
and its expected delay (base entry plus the mean of the uniform jitter
range `[0.2, 0.8]`) is monotonically non-decreasing in the attempt. -/
theorem rate_limit_backoff_spec :
    (∀ (attempt maxRetries : Nat) (jitter : ℚ), maxRetries ≤ attempt →
      handleRateLimitError attempt maxRetries jitter = none)
    ∧ (∀ (attempt : Nat) (jitter : ℚ), attempt < 10 →
      handleRateLimitError attempt 10 jitter = some (baseDelay attempt + jitter))
    ∧ (∀ a b : Nat, a ≤ b → expectedDelay a ≤ expectedDelay b) := by
  refine ⟨fun attempt maxRetries jitter h => ?_, fun attempt jitter h => ?_, ?_⟩
  · simp [handleRateLimitError, h]
  · simp [handleRateLimitError, Nat.not_le.mpr h]
  · intro a b hab
    unfold expectedDelay
    have := baseDelay_mono hab
    linarith

/-- Witness for C3: the policy gives up at attempt 12 with budget 10,
returns `8 + 1/2` at attempt 3 with jitter `1/2`, and the expected delay
at attempt 2 is at most the one at attempt 7. -/
theorem rate_limit_backoff_spec_witness :
    handleRateLimitError 12 10 (1/2) = none
    ∧ handleRateLimitError 3 10 (1/2) = some (17/2)
    ∧ expectedDelay 2 ≤ expectedDelay 7 :=
  ⟨rate_limit_backoff_spec.1 12 10 (1/2) (by norm_num),
   (rate_limit_backoff_spec.2.1 3 (1/2) (by norm_num)).trans
     (by norm_num [baseDelay, baseDelays]),
   rate_limit_backoff_spec.2.2 2 7 (by norm_num)⟩

/-- C5: for every integer coordinate pair and positive viewport,
`clamp_coordinates` returns a pair inside `[0, width) × [0, height)`,
clamping each axis independently to `[0, dimension-1]`, and clamping is
idempotent. -/
theorem clamp_coordinates_spec (width height x y : Int)
    (hw : 1 ≤ width) (hh : 1 ≤ height) :
    0 ≤ (clampCoordinates width height x y).1
    ∧ (clampCoordinates width height x y).1 < width
    ∧ 0 ≤ (clampCoordinates width height x y).2
    ∧ (clampCoordinates width height x y).2 < height
    ∧ clampCoordinates width height
        (clampCoordinates width height x y).1
        (clampCoordinates width height x y).2
      = clampCoordinates width height x y
    ∧ clampCoordinates width height x y
      = (clampAxis width x, clampAxis height y) := by
  simp [clampCoordinates, clampAxis, Prod.mk.injEq]
  omega

/-- Witness for C5 at viewport 1024×768 with the out-of-bounds input
`(2000, -5)`. -/
theorem clamp_coordinates_spec_witness :
    0 ≤ (clampCoordinates 1024 768 2000 (-5)).1
    ∧ (clampCoordinates 1024 768 2000 (-5)).1 < 1024
    ∧ 0 ≤ (clampCoordinates 1024 768 2000 (-5)).2
    ∧ (clampCoordinates 1024 768 2000 (-5)).2 < 768
    ∧ clampCoordinates 1024 768
        (clampCoordinates 1024 768 2000 (-5)).1
        (clampCoordinates 1024 768 2000 (-5)).2
      = clampCoordinates 1024 768 2000 (-5)
    ∧ clampCoordinates 1024 768 2000 (-5)
      = (clampAxis 1024 2000, clampAxis 768 (-5)) :=
  clamp_coordinates_spec 1024 768 2000 (-5) (by norm_num) (by norm_num)

/-! ## Theorems for claims C6, C7 and C10 -/

/-- Recognizer for wheel effects, used to count wheel events. -/
def isWheel : Effect → Bool
  | .wheel _ _ => true
  | _ => false

/-- C6: for every pointer-button action, a supplied text parameter is
rejected with an invalid-argument error before any transport call (the
effect list is empty); with the coordinate omitted the click targets the
last recorded pointer position, defaulting to the viewport center; and a
modifier key is pressed down before the click events and released right
after them. -/
theorem click_family_spec (a : String) (ha : a ∈ clickActions)
    (st : SessState) (hopen : st.pageClosed = false) :
    (∀ (p : ActionParams) (t : String), p.text = some t →
      executeComputerAction st a p
        = ([], .error ("text is not accepted for " ++ a)))
    ∧ (executeComputerAction st a {}
        = (clickEffects a
            (st.lastMousePosition.getD (st.width / 2, st.height / 2)).1
            (st.lastMousePosition.getD (st.width / 2, st.height / 2)).2
            ++ [.screenshotCap], .ok st))
    ∧ (∀ (m : String), m ≠ "" →
        executeComputerAction st a { key := some m }
          = (Effect.keyDown (translateKey m)
              :: clickEffects a
                  (st.lastMousePosition.getD (st.width / 2, st.height / 2)).1
                  (st.lastMousePosition.getD (st.width / 2, st.height / 2)).2
              ++ [.keyUp (translateKey m), .screenshotCap], .ok st)) := by
  simp only [clickActions, List.mem_cons, List.not_mem_nil, or_false] at ha
  refine ⟨?_, ?_, ?_⟩
  · intro p t ht
    rcases ha with rfl | rfl | rfl | rfl | rfl <;>
      simp [executeComputerAction, dispatchFromScroll, clickActions, hopen, ht]
  · rcases ha with rfl | rfl | rfl | rfl | rfl <;>
      rcases hlast : st.lastMousePosition with _ | ⟨px, py⟩ <;>
        simp [executeComputerAction, dispatchFromScroll, truthy, clickActions,
          hopen, hlast]
  · intro m hm
    rcases ha with rfl | rfl | rfl | rfl | rfl <;>
      rcases hlast : st.lastMousePosition with _ | ⟨px, py⟩ <;>
        simp [executeComputerAction, dispatchFromScroll, truthy, clickActions,
          hopen, hm, hlast]

/-- Witness for C6 at `left_click` on a fresh 1024×768 session: text is
rejected with no effects; a bare click lands on the viewport center; a
`ctrl` modifier wraps the click. -/
theorem click_family_spec_witness :
    (executeComputerAction { width := 1024, height := 768 } "left_click"
        { text := some "x" }
      = ([], .error "text is not accepted for left_click"))
    ∧ (executeComputerAction { width := 1024, height := 768 } "left_click" {}
      = ([.mouseClick 512 384 "left", .screenshotCap],
         .ok { width := 1024, height := 768 }))
    ∧ (executeComputerAction { width := 1024, height := 768 } "left_click"
        { key := some "ctrl" }
      = ([.keyDown "Control", .mouseClick 512 384 "left", .keyUp "Control",
          .screenshotCap], .ok { width := 1024, height := 768 })) := by
  obtain ⟨h1, h2, h3⟩ := click_family_spec "left_click" (by decide)
    { width := 1024, height := 768 } rfl
  exact ⟨h1 { text := some "x" } "x" rfl, by rw [h2]; rfl,
    by rw [h3 "ctrl" (by decide)]; rfl⟩

/-- C7: the scroll action rejects a missing or unrecognized direction
and a missing or negative amount with invalid-argument errors and no
transport calls; for every valid direction and amount (and well-formed
optional coordinate) it issues exactly one wheel event whose deltas are
100 pixels per unit of amount on the direction's axis and 0 on the
other; in particular `scroll(direction="down", amount=3)` issues a wheel
event with deltaX = 0 and deltaY = 300. -/
theorem scroll_action_spec :
    (∀ (st : SessState) (p : ActionParams), st.pageClosed = false →
      (∀ d, p.scrollDirection = some d → d ∉ ["up", "down", "left", "right"]) →
      executeComputerAction st "scroll" p
        = ([], .error "scroll_direction must be \x27up\x27, \x27down\x27, \x27left\x27, or \x27right\x27"))
    ∧ (∀ (st : SessState) (p : ActionParams) (d : String), st.pageClosed = false →
        p.scrollDirection = some d → d ∈ ["up", "down", "left", "right"] →
        (∀ amt, p.scrollAmount = some amt → amt < 0) →
        executeComputerAction st "scroll" p
          = ([], .error "scroll_amount must be a non-negative int"))
    ∧ (∀ (st : SessState) (p : ActionParams) (d : String) (amt : Int),
        st.pageClosed = false →
        p.scrollDirection = some d → d ∈ ["up", "down", "left", "right"] →
        p.scrollAmount = some amt → 0 ≤ amt →
        (p.coordinate = none ∨
          ∃ c xy, p.coordinate = some c ∧ validateAndGetCoordinates st c = .ok xy) →
        (executeComputerAction st "scroll" p).1.filter isWheel
            = [Effect.wheel (scrollDelta d amt).1 (scrollDelta d amt).2]
          ∧ ∃ st', (executeComputerAction st "scroll" p).2 = .ok st')
    ∧ (∀ amt : Int, scrollDelta "down" amt = (0, 100 * amt)
        ∧ scrollDelta "up" amt = (0, -(100 * amt))
        ∧ scrollDelta "right" amt = (100 * amt, 0)
        ∧ scrollDelta "left" amt = (-(100 * amt), 0))
    ∧ (executeComputerAction { width := 1024, height := 768 } "scroll"
        { scrollDirection := some "down", scrollAmount := some 3 }
      = ([.wheel 0 300, .screenshotCap], .ok { width := 1024, height := 768 })) := by
  refine ⟨fun st p hopen hdir => ?_, fun st p d hopen hd hdmem hneg => ?_,
    fun st p d amt hopen hd hdmem hamt hnonneg hcoord => ?_, fun amt => ?_, ?_⟩
  · cases hsd : p.scrollDirection with
    | none => simp [executeComputerAction, dispatchFromScroll, hopen, hsd]
    | some d =>
      have := hdir d hsd
      simp only [List.mem_cons, List.not_mem_nil, or_false, not_or] at this
      simp [executeComputerAction, dispatchFromScroll, hopen, hsd, this.1,
        this.2.1, this.2.2.1, this.2.2.2]
  · cases hsa : p.scrollAmount with
    | none =>
      fin_cases hdmem <;>
        simp [executeComputerAction, dispatchFromScroll, hopen, hd, hsa]
    | some amt =>
      have := hneg amt hsa
      fin_cases hdmem <;>
        simp [executeComputerAction, dispatchFromScroll, hopen, hd, hsa, this]
  · rcases hcoord with hc | ⟨c, ⟨x, y⟩, hc, hval⟩
    · fin_cases hdmem <;>
        cases htr : truthy p.text <;>
          simp [executeComputerAction, dispatchFromScroll, hopen, hd, hamt,
            Int.not_lt.mpr hnonneg, hc, htr, isWheel, scrollDelta, List.filter]
    · fin_cases hdmem <;>
        cases htr : truthy p.text <;>
          simp [executeComputerAction, dispatchFromScroll, hopen, hd, hamt,
            Int.not_lt.mpr hnonneg, hc, hval, htr, isWheel, scrollDelta,
            List.filter]
  · simp [scrollDelta]
  · rfl

/-- Witness for C7: the three hypothesised conjuncts applied at concrete
inputs on a fresh 1024×768 session. -/
theorem scroll_action_spec_witness :
    (executeComputerAction { width := 1024, height := 768 } "scroll"
        { scrollDirection := some "diag", scrollAmount := some 3 }
      = ([], .error "scroll_direction must be \x27up\x27, \x27down\x27, \x27left\x27, or \x27right\x27"))
    ∧ (executeComputerAction { width := 1024, height := 768 } "scroll"
        { scrollDirection := some "up" }
      = ([], .error "scroll_amount must be a non-negative int"))
    ∧ ((executeComputerAction { width := 1024, height := 768 } "scroll"
          { scrollDirection := some "left", scrollAmount := some 2 }).1.filter isWheel
        = [Effect.wheel (scrollDelta "left" 2).1 (scrollDelta "left" 2).2]
      ∧ ∃ st', (executeComputerAction { width := 1024, height := 768 } "scroll"
          { scrollDirection := some "left", scrollAmount := some 2 }).2 = .ok st') := by
  refine ⟨?_, ?_, ?_⟩
  · exact scroll_action_spec.1 { width := 1024, height := 768 }
      { scrollDirection := some "diag", scrollAmount := some 3 } rfl
      (by intro d hd; cases hd; decide)
  · exact scroll_action_spec.2.1 { width := 1024, height := 768 }
      { scrollDirection := some "up" } "up" rfl rfl (by decide)
      (by intro amt hamt; cases hamt)
  · exact scroll_action_spec.2.2.1 { width := 1024, height := 768 }
      { scrollDirection := some "left", scrollAmount := some 2 } "left" 2 rfl rfl
      (by decide) rfl (by decide) (Or.inl rfl)

/-- C10 (code bug): the sync and async `execute_computer_action` diverge
on `left_mouse_down`/`left_mouse_up`.  The sync variant issues the mouse
event and returns a screenshot; the async variant issues the mouse event
and then raises the invalid-action error, because its return-screenshot
statement is unreachable (it follows `raise e` inside the `except`
clause). -/
theorem sync_async_left_mouse_divergence :
    (executeComputerAction { width := 1024, height := 768 } "left_mouse_down" {}
      = ([.mouseDown, .screenshotCap], .ok { width := 1024, height := 768 }))
    ∧ (executeComputerActionAsync { width := 1024, height := 768 }
        "left_mouse_down" {}
      = ([.mouseDown], .error "Invalid action: left_mouse_down"))
    ∧ (executeComputerAction { width := 1024, height := 768 } "left_mouse_up" {}
      = ([.mouseUp, .screenshotCap], .ok { width := 1024, height := 768 }))
    ∧ (executeComputerActionAsync { width := 1024, height := 768 }
        "left_mouse_up" {}
      = ([.mouseUp], .error "Invalid action: left_mouse_up")) :=
  ⟨rfl, rfl, rfl, rfl⟩

/-! ## Session teardown

Embedding of `SteelBrowserSession.__exit__` (lines 411-445) and of the
partial-resource cleanup in the `except` clause of
`SteelBrowserSession.__enter__` (lines 391-409).  Each cleanup step is
guarded by a handle-existence check and wrapped in its own try/except
whose handler only logs, so a raising step never prevents the following
steps; the embedded functions return the list of steps attempted, in
source order, and carry no error constructor for the teardown itself. -/

/-- The four teardown steps of `__exit__`, in source order. -/
inductive CleanupStep where
  | closePage
  | closeBrowser
  | stopPlaywright
  | releaseSession
deriving DecidableEq, Repr

/-- Which handles exist (`self._page`, `self._browser`,
`self._playwright`, `self.session` being non-None). -/
structure Handles where
  page : Bool
  browser : Bool
  playwright : Bool
  session : Bool
deriving DecidableEq, Repr

/-- Outcome of running one underlying cleanup call; `fails` says which
calls raise. -/
def runStep (fails : CleanupStep → Bool) (s : CleanupStep) : Except String Unit :=
  if fails s then .error "cleanup step raised" else .ok ()

/-- One guarded `try: step() except Exception: log` block: the step is
attempted and any error is swallowed. -/
def attemptStep (fails : CleanupStep → Bool) (s : CleanupStep) : List CleanupStep :=
  match runStep fails s with
  | .ok _ => [s]
  | .error _ => [s]

/-- Embedding of `__exit__`: close page, close browser, stop playwright,
release the Steel session, each guarded and best-effort.  Returns the
steps attempted. -/
def sessionExit (present : Handles) (fails : CleanupStep → Bool) :
    List CleanupStep :=
  (if present.page then attemptStep fails .closePage else [])
    ++ (if present.browser then attemptStep fails .closeBrowser else [])
    ++ (if present.playwright then attemptStep fails .stopPlaywright else [])
    ++ (if present.session then attemptStep fails .releaseSession else [])

/-- Embedding of the `except` clause of `__enter__`: best-effort cleanup
of the partially created browser, playwright and session, then re-raise
of the original exception (`raise`, line 409). -/
def enterFailureCleanup (present : Handles) (fails : CleanupStep → Bool)
    (originalError : String) : List CleanupStep × Except String Unit :=
  ((if present.browser then attemptStep fails .closeBrowser else [])
    ++ (if present.playwright then attemptStep fails .stopPlaywright else [])
    ++ (if present.session then attemptStep fails .releaseSession else []),
   .error originalError)

/-! ## Start-URL navigation with fallbacks

Embedding of `SteelBrowserSession._safe_navigate_to_start_url`
(lines 291-336).  `navOk u` is the outcome of `page.goto(u, ...)` (every
`goto` is inside a try/except, so a failure never escapes); `ready r`
is the outcome of the `r`-th `_ensure_page_ready` call.  The function
returns the list of URLs attempted, in order; its type carries no error
constructor because the source returns normally on every path. -/

/-- The ordered fallback destinations (lines 314-318): a simplified
search-engine URL, a neutral example domain, then an inline placeholder
document. -/
def fallbackUrls : List String :=
  ["https://www.google.com/?hl=en-GB", "https://example.com",
   "data:text/html,<html><body><h1>Ready for automation</h1></body></html>"]

/-- The fallback loop (lines 320-332): try each URL; on success stop; on
failure re-check page readiness and continue, or stop if the page became
invalid. -/
def tryFallbacks (navOk : String → Bool) (ready : Nat → Bool) :
    List String → Nat → List String
  | [], _ => []
  | u :: rest, r =>
    if navOk u then [u]
    else if ready r then u :: tryFallbacks navOk ready rest (r + 1)
    else [u]

/-- Embedding of `_safe_navigate_to_start_url`: readiness check, primary
navigation, readiness re-check, then the fallback loop; every exit path
returns normally. -/
def safeNavigateToStartUrl (navOk : String → Bool) (ready : Nat → Bool)
    (startUrl : String) : List String :=
  if ¬ ready 0 then []
  else if navOk startUrl then [startUrl]
  else if ¬ ready 1 then [startUrl]
  else startUrl :: tryFallbacks navOk ready fallbackUrls 2

/-! ## Theorems for claims C4 and C8 -/

/-- Helper: a guarded cleanup step is always attempted, whether or not
the underlying call raises. -/
theorem attemptStep_eq (fails : CleanupStep → Bool) (s : CleanupStep) :
    attemptStep fails s = [s] := by
  unfold attemptStep
  cases runStep fails s <;> rfl

/-- C4: teardown attempts the cleanup steps in the fixed order page,
browser, playwright, Steel-session release; which steps raise never
changes which steps are attempted (errors are swallowed and do not
prevent later steps); and the cleanup run when `open` itself fails also
attempts all its steps and re-raises exactly the original error, never a
cleanup error. -/
theorem session_teardown_spec :
    (∀ (present : Handles) (fails : CleanupStep → Bool),
      sessionExit present fails = sessionExit present (fun _ => false))
    ∧ (∀ fails : CleanupStep → Bool,
      sessionExit ⟨true, true, true, true⟩ fails
        = [.closePage, .closeBrowser, .stopPlaywright, .releaseSession])
    ∧ (∀ (present : Handles) (fails : CleanupStep → Bool) (err : String),
      (enterFailureCleanup present fails err).1
          = (enterFailureCleanup present (fun _ => false) err).1
        ∧ (enterFailureCleanup present fails err).2 = .error err)
    ∧ (∀ (fails : CleanupStep → Bool) (err : String),
      (enterFailureCleanup ⟨false, true, true, true⟩ fails err).1
        = [.closeBrowser, .stopPlaywright, .releaseSession]) := by
  refine ⟨fun present fails => ?_, fun fails => ?_,
    fun present fails err => ⟨?_, rfl⟩, fun fails err => ?_⟩ <;>
    simp [sessionExit, enterFailureCleanup, attemptStep_eq]

/-- Witness for C4: with every step raising, teardown still attempts all
four steps in order and open-failure cleanup still re-raises the
original error. -/
theorem session_teardown_spec_witness :
    sessionExit ⟨true, true, true, true⟩ (fun _ => true)
        = [.closePage, .closeBrowser, .stopPlaywright, .releaseSession]
      ∧ (enterFailureCleanup ⟨true, true, true, true⟩ (fun _ => true) "boom").2
        = .error "boom" :=
  ⟨session_teardown_spec.2.1 (fun _ => true),
   (session_teardown_spec.2.2.1 ⟨true, true, true, true⟩ (fun _ => true) "boom").2⟩

/-- Helper: the fallback loop only ever attempts an initial segment of
the URLs it is given, in their order. -/
theorem tryFallbacks_initial (navOk : String → Bool) (ready : Nat → Bool) :
    ∀ (urls : List String) (r : Nat),
      ∃ t, tryFallbacks navOk ready urls r ++ t = urls := by
  intro urls
  induction urls with
  | nil => exact fun r => ⟨[], rfl⟩
  | cons u rest ih =>
    intro r
    by_cases hn : navOk u
    · exact ⟨rest, by simp [tryFallbacks, hn]⟩
    · by_cases hr : ready r
      · obtain ⟨t, ht⟩ := ih (r + 1)
        exact ⟨t, by simp [tryFallbacks, hn, hr, ht]⟩
      · exact ⟨rest, by simp [tryFallbacks, hn, hr]⟩

/-- C8: start-URL navigation returns normally on every path (its result
type has no error case); when the primary navigation fails and the page
stays ready, the fallbacks are attempted in the fixed order, and when
every fallback also fails all four destinations have been attempted and
the function still completes normally; the attempted URLs are always an
initial segment of primary followed by the fixed fallback list. -/
theorem safe_navigate_spec :
    (∀ (navOk : String → Bool) (startUrl : String), navOk startUrl = false →
      (∀ u ∈ fallbackUrls, navOk u = false) →
      safeNavigateToStartUrl navOk (fun _ => true) startUrl
        = startUrl :: fallbackUrls)
    ∧ (∀ (navOk : String → Bool) (ready : Nat → Bool) (startUrl : String),
      ready 0 = true → navOk startUrl = true →
      safeNavigateToStartUrl navOk ready startUrl = [startUrl])
    ∧ (∀ (navOk : String → Bool) (ready : Nat → Bool) (startUrl : String),
      ∃ t, safeNavigateToStartUrl navOk ready startUrl ++ t
        = startUrl :: fallbackUrls) := by
  refine ⟨fun navOk startUrl h0 hfb => ?_, fun navOk ready startUrl hr h0 => ?_,
    fun navOk ready startUrl => ?_⟩
  · have h1 := hfb "https://www.google.com/?hl=en-GB" (by simp [fallbackUrls])
    have h2 := hfb "https://example.com" (by simp [fallbackUrls])
    have h3 := hfb
      "data:text/html,<html><body><h1>Ready for automation</h1></body></html>"
      (by simp [fallbackUrls])
    simp [safeNavigateToStartUrl, tryFallbacks, fallbackUrls, h0, h1, h2, h3]
  · simp [safeNavigateToStartUrl, hr, h0]
  · unfold safeNavigateToStartUrl
    by_cases hr0 : ready 0
    · by_cases h0 : navOk startUrl
      · exact ⟨fallbackUrls, by simp [hr0, h0]⟩
      · by_cases hr1 : ready 1
        · obtain ⟨t, ht⟩ := tryFallbacks_initial navOk ready fallbackUrls 2
          exact ⟨t, by simp [hr0, h0, hr1, ht]⟩
        · exact ⟨fallbackUrls, by simp [hr0, h0, hr1]⟩
    · exact ⟨startUrl :: fallbackUrls, by simp [hr0]⟩

/-- Witness for C8: with navigation failing everywhere and the page
always ready, all four destinations are attempted in order; with the
primary succeeding, only it is attempted. -/
theorem safe_navigate_spec_witness :
    safeNavigateToStartUrl (fun _ => false) (fun _ => true)
        "https://www.google.com"
      = "https://www.google.com" :: fallbackUrls
    ∧ safeNavigateToStartUrl (fun _ => true) (fun _ => true)
        "https://www.google.com"
      = ["https://www.google.com"] :=
  ⟨safe_navigate_spec.1 (fun _ => false) "https://www.google.com" rfl
     (fun u _ => rfl),
   safe_navigate_spec.2.1 (fun _ => true) (fun _ => true)
     "https://www.google.com" rfl rfl⟩

/-! ## Session pool

Embedding of `SteelSessionManager` (utils/client.py, lines 31-117).
The `self._sessions` dict is a key-ordered association list; times
(`time.time()`) are rationals passed in explicitly.  A pooled session is
identified by its id string. -/

/-- One pool entry: the value dict stored in `self._sessions`
(`created_at`, `last_used`, `reusable`, `in_use`). -/
structure PoolEntry where
  createdAt : ℚ
  lastUsed : ℚ
  reusable : Bool
  inUse : Bool
deriving DecidableEq, Repr

/-- The session pool `self._sessions`, in dict insertion order. -/
abbrev Pool := List (String × PoolEntry)

/-- Embedding of `SteelSessionManager.get_available_session`
(lines 61-83): scan entries in order, skip the ones past the TTL and the
ones in use or not reusable; mark the first available entry in-use,
stamp `last_used`, and return its id. -/
def getAvailableSession (ttl now : ℚ) : Pool → Option String × Pool
  | [] => (none, [])
  | (sid, e) :: rest =>
    if now - e.createdAt > ttl then
      let r := getAvailableSession ttl now rest
      (r.1, (sid, e) :: r.2)
    else if !e.inUse && e.reusable then
      (some sid, (sid, { e with inUse := true, lastUsed := now }) :: rest)
    else
      let r := getAvailableSession ttl now rest
      (r.1, (sid, e) :: r.2)

/-- Embedding of `SteelSessionManager.release_session` (lines 85-93):
clear the in-use flag and stamp `last_used` for the given id, if
present. -/
def releasePoolSession (sid : String) (now : ℚ) (pool : Pool) : Pool :=
  pool.map fun se =>
    if se.1 = sid then (se.1, { se.2 with inUse := false, lastUsed := now })
    else se

/-- Embedding of `SteelSessionManager.cleanup_expired_sessions`
(lines 103-117): remove every entry past the TTL and return the removed
ids, in order. -/
def cleanupExpiredSessions (ttl now : ℚ) (pool : Pool) :
    List String × Pool :=
  ((pool.filter fun se => now - se.2.createdAt > ttl).map Prod.fst,
   pool.filter fun se => ¬ now - se.2.createdAt > ttl)

/-- A client-visible pool operation, with the wall-clock time at which
it runs. -/
inductive PoolOp where
  | get (now : ℚ)
  | release (sid : String) (now : ℚ)
  | cleanup (now : ℚ)
deriving DecidableEq

/-- One pool operation: the new pool and, for `get`, the id handed
out. -/
def poolStep (ttl : ℚ) (pool : Pool) : PoolOp → Pool × Option String
  | .get now =>
    let r := getAvailableSession ttl now pool
    (r.2, r.1)
  | .release sid now => (releasePoolSession sid now pool, none)
  | .cleanup now => ((cleanupExpiredSessions ttl now pool).2, none)

/-- The ids handed out along a sequence of pool operations. -/
def runOutputs (ttl : ℚ) : Pool → List PoolOp → List (Option String)
  | _, [] => []
  | pool, op :: ops =>
    let r := poolStep ttl pool op
    r.2 :: runOutputs ttl r.1 ops

/-- The session `sid` is currently borrowed, or not pooled at all: every
pool entry carrying its id has the in-use flag set. -/
def borrowedOrAbsent (sid : String) (pool : Pool) : Prop :=
  ∀ e : PoolEntry, (sid, e) ∈ pool → e.inUse = true

/-! ## Theorems for claim C9 -/

/-- Helper: a successful `get_available_session` hands out an id whose
entry was present, not in use, reusable and within the TTL, and the new
pool holds that entry with the in-use flag set and `last_used`
stamped. -/
theorem getAvailableSession_mem (ttl now : ℚ) :
    ∀ (pool : Pool) (sid : String) (pool' : Pool),
      getAvailableSession ttl now pool = (some sid, pool') →
      ∃ e, (sid, e) ∈ pool ∧ e.inUse = false ∧ e.reusable = true
        ∧ now - e.createdAt ≤ ttl
        ∧ (sid, { e with inUse := true, lastUsed := now }) ∈ pool' := by
  intro pool
  induction pool with
  | nil => intro sid pool' h; simp [getAvailableSession] at h
  | cons se rest ih =>
    obtain ⟨s, e⟩ := se
    intro sid pool' h
    by_cases hexp : now - e.createdAt > ttl
    · rw [getAvailableSession, if_pos hexp] at h
      cases hg : getAvailableSession ttl now rest with
      | mk ro rp =>
        rw [hg] at h
        have h' : ro = some sid ∧ (s, e) :: rp = pool' := by simpa using h
        obtain ⟨h1, h2⟩ := h'
        obtain ⟨e', hmem, hflags⟩ := ih sid rp (by rw [hg, h1])
        exact ⟨e', List.mem_cons_of_mem _ hmem, hflags.1, hflags.2.1,
          hflags.2.2.1, h2 ▸ List.mem_cons_of_mem _ hflags.2.2.2⟩
    · by_cases hav : (!e.inUse && e.reusable) = true
      · rw [getAvailableSession, if_neg hexp, if_pos hav] at h
        have h' : s = sid
            ∧ (s, { e with inUse := true, lastUsed := now }) :: rest = pool' := by
          simpa using h
        obtain ⟨h1, h2⟩ := h'
        subst h1
        have hni : e.inUse = false := by
          simpa using (Bool.and_eq_true _ _ |>.mp hav).1
        have hru : e.reusable = true := (Bool.and_eq_true _ _ |>.mp hav).2
        exact ⟨e, List.mem_cons_self .., hni, hru, le_of_not_lt hexp,
          h2 ▸ List.mem_cons_self ..⟩
      · rw [getAvailableSession, if_neg hexp, if_neg hav] at h
        cases hg : getAvailableSession ttl now rest with
        | mk ro rp =>
          rw [hg] at h
          have h' : ro = some sid ∧ (s, e) :: rp = pool' := by simpa using h
          obtain ⟨h1, h2⟩ := h'
          obtain ⟨e', hmem, hflags⟩ := ih sid rp (by rw [hg, h1])
          exact ⟨e', List.mem_cons_of_mem _ hmem, hflags.1, hflags.2.1,
            hflags.2.2.1, h2 ▸ List.mem_cons_of_mem _ hflags.2.2.2⟩

/-- Helper: every entry of the pool after a `get_available_session` call
either was already in the pool or has its in-use flag set. -/
theorem getAvailableSession_entries (ttl now : ℚ) :
    ∀ (pool : Pool) (r : Option String) (pool' : Pool),
      getAvailableSession ttl now pool = (r, pool') →
      ∀ s e', (s, e') ∈ pool' → (s, e') ∈ pool ∨ e'.inUse = true := by
  intro pool
  induction pool with
  | nil =>
    intro r pool' h s e' hm
    simp [getAvailableSession] at h
    rw [h.2] at hm
    simp at hm
  | cons se rest ih =>
    obtain ⟨s0, e0⟩ := se
    intro r pool' h s e' hm
    by_cases hexp : now - e0.createdAt > ttl
    · rw [getAvailableSession, if_pos hexp] at h
      cases hg : getAvailableSession ttl now rest with
      | mk ro rp =>
        rw [hg] at h
        have h' : ro = r ∧ (s0, e0) :: rp = pool' := by simpa using h
        rw [← h'.2] at hm
        rcases List.mem_cons.mp hm with heq | hmem
        · exact Or.inl (heq ▸ List.mem_cons_self ..)
        · rcases ih ro rp hg s e' hmem with hin | hu
          · exact Or.inl (List.mem_cons_of_mem _ hin)
          · exact Or.inr hu
    · by_cases hav : (!e0.inUse && e0.reusable) = true
      · rw [getAvailableSession, if_neg hexp, if_pos hav] at h
        have h' : some s0 = r
            ∧ (s0, { e0 with inUse := true, lastUsed := now }) :: rest = pool' := by
          simpa using h
        rw [← h'.2] at hm
        rcases List.mem_cons.mp hm with heq | hmem
        · exact Or.inr (by rw [Prod.mk.injEq] at heq; rw [heq.2])
        · exact Or.inl (List.mem_cons_of_mem _ hmem)
      · rw [getAvailableSession, if_neg hexp, if_neg hav] at h
        cases hg : getAvailableSession ttl now rest with
        | mk ro rp =>
          rw [hg] at h
          have h' : ro = r ∧ (s0, e0) :: rp = pool' := by simpa using h
          rw [← h'.2] at hm
          rcases List.mem_cons.mp hm with heq | hmem
          · exact Or.inl (heq ▸ List.mem_cons_self ..)
          · rcases ih ro rp hg s e' hmem with hin | hu
            · exact Or.inl (List.mem_cons_of_mem _ hin)
            · exact Or.inr hu

/-- Helper: with unique pool keys (a dict invariant), the id handed out
by `get_available_session` is borrowed in the resulting pool. -/
theorem getAvailableSession_borrows (ttl now : ℚ) :
    ∀ (pool : Pool) (sid : String) (pool' : Pool),
      (pool.map Prod.fst).Nodup →
      getAvailableSession ttl now pool = (some sid, pool') →
      borrowedOrAbsent sid pool' := by
  intro pool
  induction pool with
  | nil => intro sid pool' _ h; simp [getAvailableSession] at h
  | cons se rest ih =>
    obtain ⟨s, e⟩ := se
    intro sid pool' hnd h
    simp only [List.map_cons, List.nodup_cons] at hnd
    by_cases hexp : now - e.createdAt > ttl
    · rw [getAvailableSession, if_pos hexp] at h
      cases hg : getAvailableSession ttl now rest with
      | mk ro rp =>
        rw [hg] at h
        have h' : ro = some sid ∧ (s, e) :: rp = pool' := by simpa using h
        have hb : borrowedOrAbsent sid rp := ih sid rp hnd.2 (by rw [hg, h'.1])
        have hsI : sid ∈ rest.map Prod.fst := by
          obtain ⟨e', hmem, _⟩ :=
            getAvailableSession_mem ttl now rest sid rp (by rw [hg, h'.1])
          exact List.mem_map_of_mem Prod.fst hmem
        intro f hf
        rw [← h'.2] at hf
        rcases List.mem_cons.mp hf with heq | hmem
        · have hss : sid = s := congrArg Prod.fst heq
          exact absurd (hss ▸ hsI) hnd.1
        · exact hb f hmem
    · by_cases hav : (!e.inUse && e.reusable) = true
      · rw [getAvailableSession, if_neg hexp, if_pos hav] at h
        have h' : s = sid
            ∧ (s, { e with inUse := true, lastUsed := now }) :: rest = pool' := by
          simpa using h
        obtain ⟨rfl, h2⟩ := h'
        intro f hf
        rw [← h2] at hf
        rcases List.mem_cons.mp hf with heq | hmem
        · rw [Prod.mk.injEq] at heq
          rw [heq.2]
        · exact absurd (List.mem_map_of_mem Prod.fst hmem) hnd.1
      · rw [getAvailableSession, if_neg hexp, if_neg hav] at h
        cases hg : getAvailableSession ttl now rest with
        | mk ro rp =>
          rw [hg] at h
          have h' : ro = some sid ∧ (s, e) :: rp = pool' := by simpa using h
          have hb : borrowedOrAbsent sid rp := ih sid rp hnd.2 (by rw [hg, h'.1])
          have hsI : sid ∈ rest.map Prod.fst := by
            obtain ⟨e', hmem, _⟩ :=
              getAvailableSession_mem ttl now rest sid rp (by rw [hg, h'.1])
            exact List.mem_map_of_mem Prod.fst hmem
          intro f hf
          rw [← h'.2] at hf
          rcases List.mem_cons.mp hf with heq | hmem
          · have hss : sid = s := congrArg Prod.fst heq
            exact absurd (hss ▸ hsI) hnd.1
          · exact hb f hmem

/-- Helper: a borrowed (or absent) session stays borrowed or absent
across any pool operation that is not a release of its id. -/
theorem borrowed_preserved (ttl : ℚ) (sid : String) (pool : Pool)
    (op : PoolOp) (hb : borrowedOrAbsent sid pool)
    (hop : ∀ now, op ≠ PoolOp.release sid now) :
    borrowedOrAbsent sid (poolStep ttl pool op).1 := by
  cases op with
  | get now =>
    intro e hm
    cases hg : getAvailableSession ttl now pool with
    | mk ro rp =>
      have hm' : (sid, e) ∈ rp := by
        simpa [poolStep, hg] using hm
      rcases getAvailableSession_entries ttl now pool ro rp hg sid e hm' with
        hin | hu
      · exact hb e hin
      · exact hu
  | release sid' now =>
    have hne : sid ≠ sid' := by
      intro hcontra
      exact hop now (by rw [hcontra])
    intro e hm
    simp only [poolStep, releasePoolSession, List.mem_map] at hm
    obtain ⟨⟨s0, e0⟩, hmem, heq⟩ := hm
    by_cases hs : s0 = sid'
    · subst hs
      simp at heq
      exact absurd heq.1.symm hne
    · simp [hs] at heq
      obtain ⟨hq1, hq2⟩ := heq
      subst hq1
      subst hq2
      exact hb e0 hmem
  | cleanup now =>
    intro e hm
    simp only [poolStep, cleanupExpiredSessions, List.mem_filter] at hm
    exact hb e hm.1

/-- Helper: `get_available_session` never hands out a borrowed id. -/
theorem get_not_borrowed (ttl : ℚ) (sid : String) (pool : Pool)
    (hb : borrowedOrAbsent sid pool) (now : ℚ) :
    (poolStep ttl pool (.get now)).2 ≠ some sid := by
  intro hcontra
  cases hg : getAvailableSession ttl now pool with
  | mk ro rp =>
    have hro : ro = some sid := by simpa [poolStep, hg] using hcontra
    obtain ⟨e, hmem, hni, _⟩ :=
      getAvailableSession_mem ttl now pool sid rp (by rw [hg, hro])
    rw [hb e hmem] at hni
    exact Bool.noConfusion hni

/-- C9: `get_available_session` only hands out an id whose entry was not
in use, reusable and within the TTL, and marks it in use; with unique
pool keys a handed-out id is borrowed in the resulting pool, and along
any sequence of get/release/cleanup operations a borrowed (or absent) id
is never handed out again until a release for that id occurs; and
`cleanup_expired_sessions` removes exactly the entries older than the
TTL and returns exactly their ids. -/
theorem session_pool_spec (ttl : ℚ) :
    (∀ (now : ℚ) (pool : Pool) (sid : String) (pool' : Pool),
      getAvailableSession ttl now pool = (some sid, pool') →
      ∃ e, (sid, e) ∈ pool ∧ e.inUse = false ∧ e.reusable = true
        ∧ now - e.createdAt ≤ ttl
        ∧ (sid, { e with inUse := true, lastUsed := now }) ∈ pool')
    ∧ (∀ (now : ℚ) (pool : Pool) (sid : String) (pool' : Pool),
      (pool.map Prod.fst).Nodup →
      getAvailableSession ttl now pool = (some sid, pool') →
      borrowedOrAbsent sid pool')
    ∧ (∀ (pool : Pool) (sid : String) (ops : List PoolOp),
      borrowedOrAbsent sid pool →
      (∀ op ∈ ops, ∀ now, op ≠ PoolOp.release sid now) →
      ∀ o ∈ runOutputs ttl pool ops, o ≠ some sid)
    ∧ (∀ (now : ℚ) (pool : Pool),
      (∀ sid, sid ∈ (cleanupExpiredSessions ttl now pool).1
        ↔ ∃ e, (sid, e) ∈ pool ∧ now - e.createdAt > ttl)
      ∧ (∀ sid e, (sid, e) ∈ (cleanupExpiredSessions ttl now pool).2
        ↔ (sid, e) ∈ pool ∧ ¬ now - e.createdAt > ttl)) := by
  refine ⟨getAvailableSession_mem ttl, getAvailableSession_borrows ttl, ?_, ?_⟩
  · intro pool sid ops
    induction ops generalizing pool with
    | nil => intro _ _ o ho; simp [runOutputs] at ho
    | cons op rest ih =>
      intro hb hops o ho
      simp only [runOutputs, List.mem_cons] at ho
      rcases ho with rfl | ho
      · cases op with
        | get now => exact get_not_borrowed ttl sid pool hb now
        | release s n => simp [poolStep]
        | cleanup n => simp [poolStep]
      · exact ih (poolStep ttl pool op).1
          (borrowed_preserved ttl sid pool op hb (hops op (List.mem_cons_self ..)))
          (fun op' hop' => hops op' (List.mem_cons_of_mem _ hop')) o ho
  · intro now pool
    constructor
    · intro sid
      simp only [cleanupExpiredSessions, List.mem_map, List.mem_filter,
        decide_eq_true_eq]
      constructor
      · rintro ⟨⟨a, b⟩, ⟨hmem, hgt⟩, rfl⟩
        exact ⟨b, hmem, hgt⟩
      · rintro ⟨e, hmem, hgt⟩
        exact ⟨(sid, e), ⟨hmem, hgt⟩, rfl⟩
    · intro sid e
      simp [cleanupExpiredSessions, List.mem_filter]

/-- Witness for C9 on a concrete two-entry pool with TTL 300: the get at
time 10 hands out the free session `a` with all postconditions, and the
busy session `b` is never handed out across two subsequent gets. -/
theorem session_pool_spec_witness :
    (∃ e, ("a", e) ∈ ([("a", ⟨0, 0, true, false⟩),
          ("b", ⟨0, 0, true, true⟩)] : Pool)
      ∧ e.inUse = false ∧ e.reusable = true ∧ (10 : ℚ) - e.createdAt ≤ 300
      ∧ ("a", { e with inUse := true, lastUsed := 10 })
          ∈ ([("a", ⟨0, 10, true, true⟩), ("b", ⟨0, 0, true, true⟩)] : Pool))
    ∧ borrowedOrAbsent "a"
        [("a", ⟨0, 10, true, true⟩), ("b", ⟨0, 0, true, true⟩)]
    ∧ (∀ o ∈ runOutputs 300
        [("a", ⟨0, 0, true, false⟩), ("b", ⟨0, 0, true, true⟩)]
        [PoolOp.get 10, PoolOp.get 11], o ≠ some "b") := by
  refine ⟨?_, ?_, ?_⟩
  · exact (session_pool_spec 300).1 10
      [("a", ⟨0, 0, true, false⟩), ("b", ⟨0, 0, true, true⟩)] "a"
      [("a", ⟨0, 10, true, true⟩), ("b", ⟨0, 0, true, true⟩)]
      (by norm_num [getAvailableSession])
  · exact (session_pool_spec 300).2.1 10
      [("a", ⟨0, 0, true, false⟩), ("b", ⟨0, 0, true, true⟩)] "a"
      [("a", ⟨0, 10, true, true⟩), ("b", ⟨0, 0, true, true⟩)]
      (by decide) (by norm_num [getAvailableSession])
  · exact (session_pool_spec 300).2.2.1
      [("a", ⟨0, 0, true, false⟩), ("b", ⟨0, 0, true, true⟩)] "b"
      [PoolOp.get 10, PoolOp.get 11]
      (by intro e he; simp at he; rw [he])
      (by
        intro op hop now
        simp only [List.mem_cons, List.not_mem_nil, or_false] at hop
        rcases hop with rfl | rfl <;> simp)

/-! ## Agent loop

Embedding of `ClaudeComputerUseAgent.execute_task` (lines 1189-1353).
The Anthropic API is a scripted oracle `lm` indexed by the global count
of `client.beta.messages.create` calls; `RateLimitError` and
`APITimeoutError` are merged into the `rateLimited` outcome (the source
catches them with one handler).  The browser session and screenshot
cache behind a `tool_use` block are a second oracle `toolExec` indexed
by the count of tool executions: both the cached-screenshot path and the
`execute_computer_action` path return a base64 string or raise, which is
all the loop observes.  The conversation lists `input_items`/`new_items`
are not tracked because the scripted oracles do not read them and no
control flow depends on their contents. -/

/-- One content block of a language-model response.  Only text blocks
and `computer` tool-use blocks affect the loop; any other block type is
skipped by the source's `for` loop, as is a tool-use block whose name is
not `computer`. -/
inductive Block where
  | text (s : String)
  | toolUse (name : String)
deriving DecidableEq, Repr

/-- Outcome of one `client.beta.messages.create` call. -/
inductive LMOutcome where
  | ok (blocks : List Block)
  | rateLimited (msg : String)
  | otherError (msg : String)
deriving DecidableEq, Repr

/-- Outcome of processing the content blocks of one response
(lines 1251-1342). -/
inductive ProcOutcome where
  | completed (s : String)
  | failedSentinel (s : String)
  | procError (s : String)
  | continueLoop (nextTool : Nat)
deriving DecidableEq, Repr

/-- Embedding of the `for block in response.content` loop: a text block
containing `"TASK_COMPLETED:"` terminates as completed, one containing
`"TASK_FAILED:"` as failed; a `computer` tool-use block executes the
next scripted tool call, and a raising execution terminates with the
`"Error processing response: "` message; otherwise processing
continues. -/
def processBlocks (toolExec : Nat → Except String String) :
    List Block → Nat → ProcOutcome
  | [], k => .continueLoop k
  | Block.text s :: rest, k =>
    if strContains s "TASK_COMPLETED:" then .completed s
    else if strContains s "TASK_FAILED:" then .failedSentinel s
    else processBlocks toolExec rest k
  | Block.toolUse name :: rest, k =>
    if name = "computer" then
      match toolExec k with
      | .ok _ => processBlocks toolExec rest (k + 1)
      | .error e => .procError ("Error processing response: " ++ e)
    else processBlocks toolExec rest k

/-- Result of the inner retry loop (`while retry_attempt < 10`,
lines 1202-1249). -/
inductive RetryResult where
  | response (blocks : List Block) (nextCall : Nat)
  | rateFail (msg : String)
  | otherFail (msg : String)
  | noResponse
deriving DecidableEq, Repr

/-- Embedding of the inner retry loop: fuel is `10 - retry_attempt`, so
the entry point is `retryLoop lm jitter 10 0 c`.  A rate-limit/timeout
error consults `_handle_rate_limit_error(retry_attempt)`; `none` would
produce the rate-limit message (this branch is unreachable with the
default budgets, see `rate_limit_retry_spec`), otherwise the call is
retried; any other error aborts with the `"Error: "` message; running
out of fuel leaves `response` as `None` in the source, which the caller
turns into the retries-exhausted failure. -/
def retryLoop (lm : Nat → LMOutcome) (jitter : ℚ) :
    Nat → Nat → Nat → RetryResult
  | 0, _, _ => .noResponse
  | fuel + 1, attempt, c =>
    match lm c with
    | .ok blocks => .response blocks (c + 1)
    | .rateLimited m =>
      match handleRateLimitError attempt 10 jitter with
      | none => .rateFail ("Rate limit exceeded after retries: " ++ m)
      | some _ => retryLoop lm jitter fuel (attempt + 1) (c + 1)
    | .otherError m => .otherFail ("Error: " ++ m)

/-- The structured result of `execute_task` (success flag, result text,
iterations consumed, final URL). -/
structure TaskResult where
  success : Bool
  result : String
  iterations : Nat
  finalUrl : String
deriving DecidableEq, Repr

/-- Embedding of the outer `while iterations < max_iterations` loop:
fuel is `max_iterations - iterations`; `c` counts language-model calls
and `k` tool executions.  Mirrors the source's terminal returns for the
two sentinels, processing errors, immediate other-error failures, the
dead rate-limit branch, the `response is None` exhaustion, and the
iteration-budget exhaustion message. -/
def taskLoop (lm : Nat → LMOutcome) (toolExec : Nat → Except String String)
    (jitter : ℚ) (url : String) (maxIterations : Nat) :
    Nat → Nat → Nat → Nat → TaskResult
  | 0, iters, _, _ =>
    ⟨false, "Task execution stopped after " ++ toString maxIterations
      ++ " iterations", iters, url⟩
  | fuel + 1, iters, c, k =>
    match retryLoop lm jitter 10 0 c with
    | .rateFail m => ⟨false, m, iters + 1, url⟩
    | .otherFail m => ⟨false, m, iters + 1, url⟩
    | .noResponse => ⟨false, "Failed to get response after retries", iters + 1, url⟩
    | .response blocks c' =>
      match processBlocks toolExec blocks k with
      | .completed s => ⟨true, s, iters + 1, url⟩
      | .failedSentinel s => ⟨false, s, iters + 1, url⟩
      | .procError s => ⟨false, s, iters + 1, url⟩
      | .continueLoop k' =>
        taskLoop lm toolExec jitter url maxIterations fuel (iters + 1) c' k'

/-- Embedding of `execute_task(task, max_iterations)`: run the loop from
iteration 0 with fresh call counters.  `url` stands for
`self.browser_session.get_current_url()` in the returned record. -/
def executeTask (lm : Nat → LMOutcome) (toolExec : Nat → Except String String)
    (jitter : ℚ) (url : String) (maxIterations : Nat) : TaskResult :=
  taskLoop lm toolExec jitter url maxIterations maxIterations 0 0 0

/-! ## Theorems for claims C1 and C2 -/

/-- Helper: a successful language-model call ends the retry loop with
the response and advances the call counter. -/
theorem retryLoop_ok (lm : Nat → LMOutcome) (jitter : ℚ) (fuel a c : Nat)
    (blocks : List Block) (h : lm c = .ok blocks) :
    retryLoop lm jitter (fuel + 1) a c = .response blocks (c + 1) := by
  simp [retryLoop, h]

/-- Helper: a rate-limited call with attempts left retries the same
iteration at the next call index and attempt number. -/
theorem retryLoop_rateLimited_step (lm : Nat → LMOutcome) (jitter : ℚ)
    (fuel a c : Nat) (m : String) (h : lm c = .rateLimited m) (ha : a < 10) :
    retryLoop lm jitter (fuel + 1) a c = retryLoop lm jitter fuel (a + 1) (c + 1) := by
  simp [retryLoop, h, handleRateLimitError, Nat.not_le.mpr ha]

/-- Helper: `k` leading rate-limited calls followed by a successful one
are all absorbed inside one run of the retry loop. -/
theorem retryLoop_skips_rateLimits (lm : Nat → LMOutcome) (jitter : ℚ) :
    ∀ (k fuel a c : Nat) (blocks : List Block), fuel + a = 10 → k < fuel →
      (∀ i < k, ∃ m, lm (c + i) = .rateLimited m) →
      lm (c + k) = .ok blocks →
      retryLoop lm jitter fuel a c = .response blocks (c + k + 1) := by
  intro k
  induction k with
  | zero =>
    intro fuel a c blocks hfa hk hrl hok
    obtain ⟨f, rfl⟩ : ∃ f, fuel = f + 1 :=
      ⟨fuel - 1, by omega⟩
    simpa using retryLoop_ok lm jitter f a c blocks (by simpa using hok)
  | succ k ih =>
    intro fuel a c blocks hfa hk hrl hok
    obtain ⟨f, rfl⟩ : ∃ f, fuel = f + 1 := ⟨fuel - 1, by omega⟩
    obtain ⟨m, hm⟩ := hrl 0 (Nat.succ_pos k)
    rw [retryLoop_rateLimited_step lm jitter f a c m (by simpa using hm)
      (by omega)]
    have := ih f (a + 1) (c + 1) blocks (by omega) (by omega)
      (fun i hi => by
        obtain ⟨m', hm'⟩ := hrl (i + 1) (by omega)
        exact ⟨m', by rw [show c + 1 + i = c + (i + 1) by omega]; exact hm'⟩)
      (by rw [show c + 1 + k = c + (k + 1) by omega]; exact hok)
    rw [this, show c + 1 + k = c + (k + 1) by omega]

/-- Helper: ten consecutive rate-limited calls exhaust the retry loop
without a response. -/
theorem retryLoop_exhausts (lm : Nat → LMOutcome) (jitter : ℚ) :
    ∀ (fuel a c : Nat), fuel + a = 10 →
      (∀ i < fuel, ∃ m, lm (c + i) = .rateLimited m) →
      retryLoop lm jitter fuel a c = .noResponse := by
  intro fuel
  induction fuel with
  | zero => intro a c _ _; rfl
  | succ f ih =>
    intro a c hfa hrl
    obtain ⟨m, hm⟩ := hrl 0 (Nat.succ_pos f)
    rw [retryLoop_rateLimited_step lm jitter f a c m (by simpa using hm)
      (by omega)]
    exact ih (a + 1) (c + 1) (by omega)
      (fun i hi => by
        obtain ⟨m', hm'⟩ := hrl (i + 1) (by omega)
        exact ⟨m', by rw [show c + 1 + i = c + (i + 1) by omega]; exact hm'⟩)

/-- Helper: under sentinel-free responses and non-raising tool
executions, block processing always continues. -/
theorem processBlocks_continues (toolExec : Nat → Except String String)
    (hok : ∀ k, ∃ r, toolExec k = .ok r) :
    ∀ (blocks : List Block),
      (∀ s, Block.text s ∈ blocks → strContains s "TASK_COMPLETED:" = false
        ∧ strContains s "TASK_FAILED:" = false) →
      ∀ k, ∃ k', processBlocks toolExec blocks k = .continueLoop k' := by
  intro blocks
  induction blocks with
  | nil => exact fun _ k => ⟨k, rfl⟩
  | cons b rest ih =>
    intro hsent k
    cases b with
    | text s =>
      have hs := hsent s (List.mem_cons_self ..)
      obtain ⟨k', hk'⟩ := ih (fun s' hs' => hsent s' (List.mem_cons_of_mem _ hs')) k
      exact ⟨k', by simp [processBlocks, hs.1, hs.2, hk']⟩
    | toolUse name =>
      by_cases hn : name = "computer"
      · obtain ⟨r, hr⟩ := hok k
        obtain ⟨k', hk'⟩ :=
          ih (fun s' hs' => hsent s' (List.mem_cons_of_mem _ hs')) (k + 1)
        exact ⟨k', by simp [processBlocks, hn, hr, hk']⟩
      · obtain ⟨k', hk'⟩ :=
          ih (fun s' hs' => hsent s' (List.mem_cons_of_mem _ hs')) k
        exact ⟨k', by simp [processBlocks, hn, hk']⟩

/-- Helper: with every call succeeding without a sentinel and every tool
execution succeeding, the outer loop burns all its fuel and reports the
iteration budget. -/
theorem taskLoop_exhausts_budget (lm : Nat → LMOutcome)
    (toolExec : Nat → Except String String) (jitter : ℚ) (url : String)
    (maxIterations : Nat)
    (hlm : ∀ c, ∃ blocks, lm c = .ok blocks)
    (hsent : ∀ c blocks, lm c = .ok blocks →
      ∀ s, Block.text s ∈ blocks → strContains s "TASK_COMPLETED:" = false
        ∧ strContains s "TASK_FAILED:" = false)
    (htool : ∀ k, ∃ r, toolExec k = .ok r) :
    ∀ (fuel iters c k : Nat),
      taskLoop lm toolExec jitter url maxIterations fuel iters c k
        = ⟨false, "Task execution stopped after " ++ toString maxIterations
            ++ " iterations", iters + fuel, url⟩ := by
  intro fuel
  induction fuel with
  | zero => intro iters c k; simp [taskLoop]
  | succ f ih =>
    intro iters c k
    obtain ⟨blocks, hb⟩ := hlm c
    obtain ⟨k', hk'⟩ := processBlocks_continues toolExec htool blocks
      (hsent c blocks hb) k
    rw [taskLoop, retryLoop_ok lm jitter 9 0 c blocks hb]
    simp only [hk']
    rw [ih]
    have harith : iters + 1 + f = iters + (f + 1) := by omega
    rw [harith]

/-- C1 counterexample: on the very first response the text block
`"TASK_FAILED: no"` precedes the text block `"TASK_COMPLETED: yes"`;
although a text block of the first response contains the completion
sentinel (second conjunct), the loop terminates with `success = false`,
refuting the claim that it would terminate with `success = true`. -/
theorem agent_loop_first_response_counterexample :
    executeTask
        (fun _ => .ok [.text "TASK_FAILED: no", .text "TASK_COMPLETED: yes"])
        (fun _ => .ok "shot") 0 "u" 3
      = ⟨false, "TASK_FAILED: no", 1, "u"⟩
    ∧ strContains "TASK_COMPLETED: yes" "TASK_COMPLETED:" = true :=
  ⟨rfl, rfl⟩

/-- C1 (amended): if processing the first response in block order
reaches a text block containing `"TASK_COMPLETED:"` before any
failure-sentinel block or raising tool execution, the loop terminates
with `success = true`, that block's text, and exactly 1 iteration; and
if every response is sentinel-free and every tool execution succeeds,
the loop terminates after exactly `max_iterations` iterations with
`success = false` and a message naming the budget. -/
theorem agent_loop_termination_spec :
    (∀ (lm : Nat → LMOutcome) (toolExec : Nat → Except String String)
       (jitter : ℚ) (url : String) (maxIterations : Nat)
       (blocks : List Block) (t : String),
      1 ≤ maxIterations → lm 0 = .ok blocks →
      processBlocks toolExec blocks 0 = .completed t →
      executeTask lm toolExec jitter url maxIterations = ⟨true, t, 1, url⟩)
    ∧ (∀ (lm : Nat → LMOutcome) (toolExec : Nat → Except String String)
       (jitter : ℚ) (url : String) (maxIterations : Nat),
      (∀ c, ∃ blocks, lm c = .ok blocks) →
      (∀ c blocks, lm c = .ok blocks →
        ∀ s, Block.text s ∈ blocks → strContains s "TASK_COMPLETED:" = false
          ∧ strContains s "TASK_FAILED:" = false) →
      (∀ k, ∃ r, toolExec k = .ok r) →
      executeTask lm toolExec jitter url maxIterations
        = ⟨false, "Task execution stopped after " ++ toString maxIterations
            ++ " iterations", maxIterations, url⟩) := by
  constructor
  · intro lm toolExec jitter url maxIterations blocks t hmax hlm hproc
    obtain ⟨n, rfl⟩ : ∃ n, maxIterations = n + 1 :=
      ⟨maxIterations - 1, by omega⟩
    unfold executeTask
    rw [taskLoop, retryLoop_ok lm jitter 9 0 0 blocks hlm]
    simp [hproc]
  · intro lm toolExec jitter url maxIterations hlm hsent htool
    have := taskLoop_exhausts_budget lm toolExec jitter url maxIterations
      hlm hsent htool maxIterations 0 0 0
    simpa [executeTask] using this

/-- Witness for C1: a first response containing only
`"TASK_COMPLETED: done"` terminates at iteration 1 with success; a
script that always answers `"working"` with budget 2 stops after exactly
2 iterations with the budget-naming message. -/
theorem agent_loop_termination_spec_witness :
    executeTask (fun _ => .ok [.text "TASK_COMPLETED: done"])
        (fun _ => .ok "shot") 0 "u" 3
      = ⟨true, "TASK_COMPLETED: done", 1, "u"⟩
    ∧ executeTask (fun _ => .ok [.text "working"]) (fun _ => .ok "shot") 0 "u" 2
      = ⟨false, "Task execution stopped after 2 iterations", 2, "u"⟩ := by
  constructor
  · exact agent_loop_termination_spec.1
      (fun _ => .ok [.text "TASK_COMPLETED: done"]) (fun _ => .ok "shot")
      0 "u" 3 [.text "TASK_COMPLETED: done"] "TASK_COMPLETED: done"
      (by norm_num) rfl rfl
  · exact agent_loop_termination_spec.2
      (fun _ => .ok [.text "working"]) (fun _ => .ok "shot") 0 "u" 2
      (fun c => ⟨[.text "working"], rfl⟩)
      (fun c blocks hb s hs => by
        cases hb
        simp only [List.mem_cons, List.not_mem_nil, or_false] at hs
        cases hs
        exact ⟨rfl, rfl⟩)
      (fun k => ⟨"shot", rfl⟩)

/-- C2: a rate-limited or timed-out language-model call is retried
within the same iteration (the final iteration count stays 1 even after
`k ≤ 9` leading rate-limit errors); the retry bound of 10 attempts
coincides exactly with the attempts for which the backoff policy returns
a delay; when all 10 attempts are rate-limited the loop terminates as
failed, in the same iteration, with the retries-exhausted message; and
any other error terminates the loop immediately as failed with no
retry (the result does not depend on any later scripted call). -/
theorem rate_limit_retry_spec :
    (∀ (lm : Nat → LMOutcome) (toolExec : Nat → Except String String)
       (jitter : ℚ) (url : String) (maxIterations k : Nat)
       (blocks : List Block) (t : String),
      1 ≤ maxIterations → k ≤ 9 →
      (∀ i < k, ∃ m, lm i = .rateLimited m) → lm k = .ok blocks →
      processBlocks toolExec blocks 0 = .completed t →
      executeTask lm toolExec jitter url maxIterations = ⟨true, t, 1, url⟩)
    ∧ (∀ (a : Nat) (jitter : ℚ),
      (handleRateLimitError a 10 jitter).isSome = decide (a < 10))
    ∧ (∀ (lm : Nat → LMOutcome) (toolExec : Nat → Except String String)
       (jitter : ℚ) (url : String) (maxIterations : Nat),
      1 ≤ maxIterations →
      (∀ i < 10, ∃ m, lm i = .rateLimited m) →
      executeTask lm toolExec jitter url maxIterations
        = ⟨false, "Failed to get response after retries", 1, url⟩)
    ∧ (∀ (lm : Nat → LMOutcome) (toolExec : Nat → Except String String)
       (jitter : ℚ) (url : String) (maxIterations : Nat) (m : String),
      1 ≤ maxIterations → lm 0 = .otherError m →
      executeTask lm toolExec jitter url maxIterations
        = ⟨false, "Error: " ++ m, 1, url⟩) := by
  refine ⟨?_, ?_, ?_, ?_⟩
  · intro lm toolExec jitter url maxIterations k blocks t hmax hk hrl hok hproc
    obtain ⟨n, rfl⟩ : ∃ n, maxIterations = n + 1 :=
      ⟨maxIterations - 1, by omega⟩
    unfold executeTask
    rw [taskLoop, retryLoop_skips_rateLimits lm jitter k 10 0 0 blocks
      (by omega) (by omega) (fun i hi => by simpa using hrl i hi)
      (by simpa using hok)]
    simp [hproc]
  · intro a jitter
    by_cases h : a < 10 <;> simp [handleRateLimitError, h, Nat.not_lt.mp,
      Nat.not_le.mpr]
  · intro lm toolExec jitter url maxIterations hmax hrl
    obtain ⟨n, rfl⟩ : ∃ n, maxIterations = n + 1 :=
      ⟨maxIterations - 1, by omega⟩
    unfold executeTask
    rw [taskLoop, retryLoop_exhausts lm jitter 10 0 0 (by omega)
      (fun i hi => by simpa using hrl i hi)]
  · intro lm toolExec jitter url maxIterations m hmax hlm
    obtain ⟨n, rfl⟩ : ∃ n, maxIterations = n + 1 :=
      ⟨maxIterations - 1, by omega⟩
    unfold executeTask
    have hstep : retryLoop lm jitter (9 + 1) 0 0 = .otherFail ("Error: " ++ m) := by
      simp [retryLoop, hlm]
    rw [taskLoop, hstep]

/-- Witness for C2: one rate-limit error followed by a completing
response still reports iteration 1; a script that always rate-limits
fails in iteration 1 with the retries-exhausted message; an immediate
non-rate-limit error fails at once with its message. -/
theorem rate_limit_retry_spec_witness :
    executeTask
        (fun c => if c = 0 then .rateLimited "r"
          else .ok [.text "TASK_COMPLETED: ok"])
        (fun _ => .ok "shot") 0 "u" 5
      = ⟨true, "TASK_COMPLETED: ok", 1, "u"⟩
    ∧ (handleRateLimitError 4 10 (1/4)).isSome = decide ((4 : Nat) < 10)
    ∧ executeTask (fun _ => .rateLimited "r") (fun _ => .ok "shot") 0 "u" 5
      = ⟨false, "Failed to get response after retries", 1, "u"⟩
    ∧ executeTask (fun _ => .otherError "boom") (fun _ => .ok "shot") 0 "u" 5
      = ⟨false, "Error: boom", 1, "u"⟩ := by
  refine ⟨?_, ?_, ?_, ?_⟩
  · exact rate_limit_retry_spec.1
      (fun c => if c = 0 then .rateLimited "r"
        else .ok [.text "TASK_COMPLETED: ok"])
      (fun _ => .ok "shot") 0 "u" 5 1 [.text "TASK_COMPLETED: ok"]
      "TASK_COMPLETED: ok" (by norm_num) (by norm_num)
      (fun i hi => by
        obtain rfl : i = 0 := by omega
        exact ⟨"r", rfl⟩) rfl rfl
  · exact rate_limit_retry_spec.2.1 4 (1/4)
  · exact rate_limit_retry_spec.2.2.1 (fun _ => .rateLimited "r")
      (fun _ => .ok "shot") 0 "u" 5 (by norm_num) (fun i _ => ⟨"r", rfl⟩)
  · exact rate_limit_retry_spec.2.2.2 (fun _ => .otherError "boom")
      (fun _ => .ok "shot") 0 "u" 5 "boom" (by norm_num) rfl

end LangchainSteel
